import Mathlib

/-!
Verification of the `wasmer app secrets reveal` subcommand
(`src/lib/cli/src/commands/app/secrets/reveal.rs`).

The command is embedded shallowly: external collaborators (the API client,
the identity-resolution of `AppIdent`, the project-config loader, the
interactive prompts, the secret fetchers and the structured renderers) are
oracles collected in an `Env` record, and each embedded function returns
its result together with an explicit trace of the observable effects it
performed, in order.
-/

/-- Error classes of the workflow, matching the error vocabulary of the
command: its own `bail!` sites carry a message, external collaborators fail
with their own class. -/
inductive Err where
  | argConflict
  | resolutionError
  | ioError
  | apiError
  | notFound
  | inputError
  | missingInput (msg : String)
  | unsupportedFormat (msg : String)
  deriving DecidableEq, Repr

/-- A secret as in `utils::Secret`: a name and a value. -/
structure Secret where
  name : String
  value : String
  deriving DecidableEq, Repr

/-- The `ListFormat` enumeration of `utils::render`. -/
inductive ListFormat where
  | Json
  | Yaml
  | Table
  | ItemTable
  deriving DecidableEq, Repr

/-- The `ItemFormat` enumeration of `utils::render`. -/
inductive ItemFormat where
  | Json
  | Yaml
  | Table
  deriving DecidableEq, Repr

/-- Observable effects of one invocation, recorded in execution order. -/
inductive Effect where
  | resolveAppRemote (ident : String)
  | getCurrentDir
  | readConfig (dir : String)
  | promptAppId
  | promptSecret
  | fetchSecretByName (appId : String) (name : String)
  | fetchAllSecrets (appId : String)
  | print (out : String)
  deriving DecidableEq, Repr

/-- Effects that are network calls to the remote API. -/
def Effect.isNetwork : Effect → Bool
  | .resolveAppRemote _ => true
  | .fetchSecretByName _ _ => true
  | .fetchAllSecrets _ => true
  | _ => false

/-- Effects that are interactive prompts. -/
def Effect.isPrompt : Effect → Bool
  | .promptAppId => true
  | .promptSecret => true
  | _ => false

/-- Effects that write to standard output. -/
def Effect.isPrint : Effect → Bool
  | .print _ => true
  | _ => false

/-- Effects that consult the project config file or the working directory. -/
def Effect.isConfigAccess : Effect → Bool
  | .readConfig _ => true
  | .getCurrentDir => true
  | _ => false

/-- Oracles for the external collaborators of the command. `resolveApp`
stands for `AppIdent::resolve` (returns the canonical app id),
`currentDir` for `std::env::current_dir`, `configAppId` for
`get_app_id_from_config`, the two prompts for the `dialoguer` interactions,
`fetchSecret` for `utils::get_secret_value_by_name`, `fetchAll` for
`utils::reveal_secrets`, `mkClient` for `ApiOpts::client`, and the two
render oracles for the structured serializers of `utils::render`. -/
structure Env where
  mkClient : Except Err Unit
  resolveApp : String → Except Err String
  currentDir : Except Err String
  configAppId : String → Except Err (Option String)
  promptAppIdent : Except Err String
  promptSecretName : Except Err String
  fetchSecret : String → String → Except Err String
  fetchAll : String → Except Err (List Secret)
  itemRender : ItemFormat → Secret → String
  listRender : ListFormat → List Secret → String

/-- The parsed `CmdAppSecretsReveal` argument structure (identifiers are
kept as plain strings; `fmt` is the optional `ListFormatOpts`). -/
structure CmdAppSecretsReveal where
  secret_name : Option String
  app_id : Option String
  app_dir_path : Option String
  all : Bool
  quiet : Bool
  non_interactive : Bool
  fmt : Option ListFormat

/-- Message of the `bail!` at reveal.rs line 71. -/
def noAppIdMsg : String := "No app id given. Use the `--app_id` flag to specify one."

/-- Message of the `bail!` at reveal.rs line 85. -/
def noSecretNameMsg : String := "No secret name given. Use the `--name` flag to specify one."

/-- Message of the `bail!` at reveal.rs line 116. -/
def itemTableMsg : String := "The item-table format is not available for single values."

/-- The working-directory determination of `get_app_id` lines 60 to 64: the
explicit `--app-dir` path if supplied, otherwise `current_dir()?`. -/
def choose_dir (cmd : CmdAppSecretsReveal) (env : Env) :
    Except Err String × List Effect :=
  match cmd.app_dir_path with
  | some p => (.ok p, [])
  | none => (env.currentDir, [Effect.getCurrentDir])

/-- Embedding of `CmdAppSecretsReveal::get_app_id` (reveal.rs lines 54 to 77).
Note the `if let Ok(Some(app_id))` at line 66: a config-read error falls
through exactly like an absent config id. -/
def get_app_id (cmd : CmdAppSecretsReveal) (env : Env) :
    Except Err String × List Effect :=
  match cmd.app_id with
  | some ident => (env.resolveApp ident, [Effect.resolveAppRemote ident])
  | none =>
    let rd := choose_dir cmd env
    match rd.1 with
    | .error e => (.error e, rd.2)
    | .ok dir =>
      let tr := rd.2 ++ [Effect.readConfig dir]
      match env.configAppId dir with
      | .ok (some appId) => (.ok appId, tr)
      | _ =>
        if cmd.non_interactive then
          (.error (.missingInput noAppIdMsg), tr)
        else
          match env.promptAppIdent with
          | .error e => (.error e, tr ++ [Effect.promptAppId])
          | .ok ident =>
            (env.resolveApp ident,
             tr ++ [Effect.promptAppId, Effect.resolveAppRemote ident])

/-- Embedding of `CmdAppSecretsReveal::get_secret_name` (reveal.rs lines 79
to 93). -/
def get_secret_name (cmd : CmdAppSecretsReveal) (env : Env) :
    Except Err String × List Effect :=
  match cmd.secret_name with
  | some name => (.ok name, [])
  | none =>
    if cmd.non_interactive then
      (.error (.missingInput noSecretNameMsg), [])
    else
      match env.promptSecretName with
      | .error e => (.error e, [Effect.promptSecret])
      | .ok n => (.ok n, [Effect.promptSecret])

/-- The `ListFormat` to `ItemFormat` conversion of reveal.rs lines 111 to
118, bailing on `ItemTable`. -/
def toItemFormat : ListFormat → Except Err ItemFormat
  | .Json => .ok .Json
  | .Yaml => .ok .Yaml
  | .Table => .ok .Table
  | .ItemTable => .error (.unsupportedFormat itemTableMsg)

/-- Modelled from the spec: `utils::render::sanitize_value` is not under
src/. Section 7 of the spec requires that embedded double quotes are
escaped and raw newlines are neutralized so that the emitted
KEY="VALUE" shape cannot be broken. Per character: a double quote becomes
backslash quote, a newline becomes backslash n, all else is unchanged. -/
def sanitize_char (c : Char) : String :=
  if c = Char.ofNat 34 then "\\\""
  else if c = Char.ofNat 10 then "\\n"
  else String.singleton c

/-- Modelled from the spec: see `sanitize_char`; applied to every character
of the value in order. -/
def sanitize_value (s : String) : String :=
  String.join (s.toList.map sanitize_char)

/-- One line of the plain all-mode output, from the `println!` at reveal.rs
lines 130 to 135: `name="sanitized_value"` followed by the newline of
`println!`. -/
def secretLine (s : Secret) : String :=
  s.name ++ "=\"" ++ sanitize_value s.value ++ "\"\n"

/-- Embedding of `CmdAppSecretsReveal::run_async` (reveal.rs lines 99 to
140): create the client, resolve the app id, then in single mode resolve
the name, fetch the one secret and render it, and in all mode fetch the
list and render it. -/
def run_async (cmd : CmdAppSecretsReveal) (env : Env) :
    Except Err Unit × List Effect :=
  match env.mkClient with
  | .error e => (.error e, [])
  | .ok _ =>
    let ra := get_app_id cmd env
    match ra.1 with
    | .error e => (.error e, ra.2)
    | .ok app_id =>
      if cmd.all = false then
        let rn := get_secret_name cmd env
        match rn.1 with
        | .error e => (.error e, ra.2 ++ rn.2)
        | .ok name =>
          let tr3 := ra.2 ++ rn.2 ++ [Effect.fetchSecretByName app_id name]
          match env.fetchSecret app_id name with
          | .error e => (.error e, tr3)
          | .ok value =>
            match cmd.fmt with
            | some lf =>
              match toItemFormat lf with
              | .error e => (.error e, tr3)
              | .ok itf =>
                (.ok (), tr3 ++
                  [Effect.print (env.itemRender itf (Secret.mk name value) ++ "\n")])
            | none => (.ok (), tr3 ++ [Effect.print value])
      else
        let tr3 := ra.2 ++ [Effect.fetchAllSecrets app_id]
        match env.fetchAll app_id with
        | .error e => (.error e, tr3)
        | .ok secrets =>
          match cmd.fmt with
          | some lf =>
            (.ok (), tr3 ++ [Effect.print (env.listRender lf secrets ++ "\n")])
          | none =>
            (.ok (), tr3 ++ secrets.map (fun s => Effect.print (secretLine s)))

/-- Modelled from the spec: the clap derive attributes at reveal.rs lines
26 and 30 declare `app_dir_path` conflicting with `app_id` and `all`
conflicting with `name`; clap itself (the argument-parsing framework) is
not under src/ and, per the spec, rejects such a combination at the
argument-validation boundary before the command runs. -/
def clap_validate (cmd : CmdAppSecretsReveal) : Except Err CmdAppSecretsReveal :=
  if cmd.secret_name.isSome && cmd.all then .error .argConflict
  else if cmd.app_id.isSome && cmd.app_dir_path.isSome then .error .argConflict
  else .ok cmd

/-- A full invocation: clap validation first, then `run_async`. -/
def invoke (cmd : CmdAppSecretsReveal) (env : Env) :
    Except Err Unit × List Effect :=
  match clap_validate cmd with
  | .error e => (.error e, [])
  | .ok c => run_async c env

/-- Everything an invocation writes to standard output, in order. -/
def output : List Effect → String
  | [] => ""
  | Effect.print s :: tl => s ++ output tl
  | _ :: tl => output tl

/-- Concatenation of a list of emitted strings. -/
def concatLines (l : List String) : String := l.foldr (· ++ ·) ""

/-- Phase of an effect in the pipeline: app resolution 0, secret-name
resolution 1, fetching 2, rendering 3. -/
def phaseOf : Effect → Nat
  | .resolveAppRemote _ => 0
  | .getCurrentDir => 0
  | .readConfig _ => 0
  | .promptAppId => 0
  | .promptSecret => 1
  | .fetchSecretByName _ _ => 2
  | .fetchAllSecrets _ => 2
  | .print _ => 3

/-- Output distributes over trace concatenation. -/
lemma output_append (l1 l2 : List Effect) :
    output (l1 ++ l2) = output l1 ++ output l2 := by
  induction l1 with
  | nil => simp [output]
  | cons h t ih =>
    cases h <;> simp [output, ih, String.append_assoc]

/-- A trace without print effects writes nothing. -/
lemma output_eq_empty_of_noPrint (l : List Effect)
    (h : ∀ e ∈ l, e.isPrint = false) : output l = "" := by
  induction l with
  | nil => rfl
  | cons e t ih =>
    cases e with
    | print s => exact absurd (h _ (List.mem_cons_self _ _)) (by simp [Effect.isPrint])
    | resolveAppRemote i => exact ih fun x hx => h x (List.mem_cons_of_mem _ hx)
    | getCurrentDir => exact ih fun x hx => h x (List.mem_cons_of_mem _ hx)
    | readConfig d => exact ih fun x hx => h x (List.mem_cons_of_mem _ hx)
    | promptAppId => exact ih fun x hx => h x (List.mem_cons_of_mem _ hx)
    | promptSecret => exact ih fun x hx => h x (List.mem_cons_of_mem _ hx)
    | fetchSecretByName a n => exact ih fun x hx => h x (List.mem_cons_of_mem _ hx)
    | fetchAllSecrets a => exact ih fun x hx => h x (List.mem_cons_of_mem _ hx)

/-- The directory-determination step performs at most a cwd lookup. -/
lemma choose_dir_effects (cmd : CmdAppSecretsReveal) (env : Env) :
    ∀ e ∈ (choose_dir cmd env).2, e = Effect.getCurrentDir := by
  unfold choose_dir
  cases cmd.app_dir_path <;> simp

/-- With an explicit app id, `get_app_id` is exactly one remote resolution. -/
lemma get_app_id_explicit (cmd : CmdAppSecretsReveal) (env : Env) (i : String)
    (h : cmd.app_id = some i) :
    get_app_id cmd env = (env.resolveApp i, [Effect.resolveAppRemote i]) := by
  simp [get_app_id, h]

/-- A fixed environment for concrete evaluations. -/
def testEnv : Env where
  mkClient := .ok ()
  resolveApp := fun i => .ok ("id_" ++ i)
  currentDir := .ok "/cwd"
  configAppId := fun _ => .ok none
  promptAppIdent := .ok "prompted_app"
  promptSecretName := .ok "PROMPTED"
  fetchSecret := fun _ _ => .ok "s3cr3t"
  fetchAll := fun _ => .ok []
  itemRender := fun _ s => s.name ++ ":" ++ s.value
  listRender := fun _ l => String.join (l.map (fun s => s.name))

/-- A fixed baseline command for concrete evaluations. -/
def testCmd : CmdAppSecretsReveal where
  secret_name := none
  app_id := none
  app_dir_path := none
  all := false
  quiet := false
  non_interactive := true
  fmt := none

/-- C1: when an explicit app identifier is supplied, `get_app_id` resolves
it via the external resolution collaborator and returns its canonical id
(propagating the resolution error on lookup failure), and its trace is
exactly that one remote resolution: it never reads the project config
file, determines a working directory, or prompts, regardless of the
app-dir path and the non-interactive flag. -/
theorem C1_explicit_app_id_resolved_remotely (cmd : CmdAppSecretsReveal)
    (env : Env) (i : String) (h : cmd.app_id = some i) :
    get_app_id cmd env = (env.resolveApp i, [Effect.resolveAppRemote i]) ∧
    ∀ e ∈ (get_app_id cmd env).2,
      e.isPrompt = false ∧ e.isConfigAccess = false := by
  refine ⟨get_app_id_explicit cmd env i h, ?_⟩
  rw [get_app_id_explicit cmd env i h]
  intro e he
  simp only [List.mem_singleton] at he
  subst he
  exact ⟨rfl, rfl⟩

/-- Witness for C1 at a concrete command and environment. -/
theorem C1_witness :
    get_app_id { testCmd with app_id := some "app_123" } testEnv
      = (testEnv.resolveApp "app_123", [Effect.resolveAppRemote "app_123"]) :=
  (C1_explicit_app_id_resolved_remotely
    { testCmd with app_id := some "app_123" } testEnv "app_123" rfl).1

/-- C2: with prompting disallowed, no explicit app id and no app id
obtainable from the config file in the chosen directory, `get_app_id`
fails with the missing-input error, and its trace holds no prompt and no
network call. -/
theorem C2_noninteractive_missing_input (cmd : CmdAppSecretsReveal)
    (env : Env) (dir : String)
    (h1 : cmd.app_id = none) (h2 : cmd.non_interactive = true)
    (h3 : (choose_dir cmd env).1 = .ok dir)
    (h4 : ∀ a, env.configAppId dir ≠ .ok (some a)) :
    (get_app_id cmd env).1 = .error (.missingInput noAppIdMsg) ∧
    (∀ e ∈ (get_app_id cmd env).2, e.isPrompt = false ∧ e.isNetwork = false) ∧
    (env.mkClient = .ok () →
      (run_async cmd env).1 = .error (.missingInput noAppIdMsg) ∧
      (run_async cmd env).2 = (get_app_id cmd env).2) := by
  have htr : ∀ e ∈ (choose_dir cmd env).2 ++ [Effect.readConfig dir],
      e.isPrompt = false ∧ e.isNetwork = false := by
    intro e he
    rcases List.mem_append.mp he with hl | hr
    · rw [choose_dir_effects cmd env e hl]
      exact ⟨rfl, rfl⟩
    · simp only [List.mem_singleton] at hr
      subst hr
      exact ⟨rfl, rfl⟩
  have hfail : (get_app_id cmd env).1 = .error (.missingInput noAppIdMsg) := by
    cases hc : env.configAppId dir with
    | ok o =>
      cases o with
      | some a => exact absurd hc (h4 a)
      | none => simp [get_app_id, h1, h3, hc, h2]
    | error e => simp [get_app_id, h1, h3, hc, h2]
  have heff : ∀ e ∈ (get_app_id cmd env).2,
      e.isPrompt = false ∧ e.isNetwork = false := by
    cases hc : env.configAppId dir with
    | ok o =>
      cases o with
      | some a => exact absurd hc (h4 a)
      | none =>
        simp only [get_app_id, h1, h3, hc, h2]
        simpa using htr
    | error e =>
      simp only [get_app_id, h1, h3, hc, h2]
      simpa using htr
  refine ⟨hfail, heff, ?_⟩
  intro hmc
  constructor
  · simp [run_async, hmc, hfail]
  · simp [run_async, hmc, hfail]

/-- Witness for C2 at a concrete command and environment. -/
theorem C2_witness :
    (get_app_id { testCmd with app_dir_path := some "/proj" } testEnv).1
      = .error (.missingInput noAppIdMsg) :=
  (C2_noninteractive_missing_input
    { testCmd with app_dir_path := some "/proj" } testEnv "/proj" rfl rfl rfl
    (by intro a h; simp [testEnv] at h)).1

/-- The directory step is phase 0. -/
lemma choose_dir_phase (cmd : CmdAppSecretsReveal) (env : Env) :
    ∀ e ∈ (choose_dir cmd env).2, phaseOf e = 0 := by
  intro e he
  rw [choose_dir_effects cmd env e he]
  rfl

/-- Every effect of `get_app_id` belongs to the app-resolution phase. -/
lemma get_app_id_phase (cmd : CmdAppSecretsReveal) (env : Env) :
    ∀ e ∈ (get_app_id cmd env).2, phaseOf e = 0 := by
  have hcd := choose_dir_phase cmd env
  intro e he
  have hmem : ∀ d : String,
      e ∈ (choose_dir cmd env).2 ++ [Effect.readConfig d] → phaseOf e = 0 := by
    intro d hm
    rcases List.mem_append.mp hm with h1 | h1
    · exact hcd e h1
    · simp only [List.mem_singleton] at h1; subst h1; rfl
  cases hai : cmd.app_id with
  | some i =>
    simp only [get_app_id, hai, List.mem_singleton] at he
    subst he; rfl
  | none =>
    cases hd : (choose_dir cmd env).1 with
    | error er =>
      simp only [get_app_id, hai, hd] at he
      exact hcd e he
    | ok dir =>
      cases hc : env.configAppId dir with
      | ok o =>
        cases o with
        | some a =>
          simp only [get_app_id, hai, hd, hc] at he
          exact hmem _ he
        | none =>
          cases hni : cmd.non_interactive with
          | true =>
            simp [get_app_id, hai, hd, hc, hni] at he
            rcases he with h1 | h1
            · exact hcd e h1
            · subst h1; rfl
          | false =>
            cases hp : env.promptAppIdent with
            | error er2 =>
              simp [get_app_id, hai, hd, hc, hni, hp] at he
              rcases he with h1 | h1 | h1
              · exact hcd e h1
              · subst h1; rfl
              · subst h1; rfl
            | ok i2 =>
              simp [get_app_id, hai, hd, hc, hni, hp] at he
              rcases he with h1 | h1 | h1 | h1
              · exact hcd e h1
              · subst h1; rfl
              · subst h1; rfl
              · subst h1; rfl
      | error er3 =>
        cases hni : cmd.non_interactive with
        | true =>
          simp [get_app_id, hai, hd, hc, hni] at he
          rcases he with h1 | h1
          · exact hcd e h1
          · subst h1; rfl
        | false =>
          cases hp : env.promptAppIdent with
          | error er2 =>
            simp [get_app_id, hai, hd, hc, hni, hp] at he
            rcases he with h1 | h1 | h1
            · exact hcd e h1
            · subst h1; rfl
            · subst h1; rfl
          | ok i2 =>
            simp [get_app_id, hai, hd, hc, hni, hp] at he
            rcases he with h1 | h1 | h1 | h1
            · exact hcd e h1
            · subst h1; rfl
            · subst h1; rfl
            · subst h1; rfl

/-- Every effect of `get_secret_name` belongs to the name-resolution phase. -/
lemma get_secret_name_phase (cmd : CmdAppSecretsReveal) (env : Env) :
    ∀ e ∈ (get_secret_name cmd env).2, phaseOf e = 1 := by
  intro e he
  cases hn : cmd.secret_name with
  | some n => simp [get_secret_name, hn] at he
  | none =>
    cases hni : cmd.non_interactive with
    | true => simp [get_secret_name, hn, hni] at he
    | false =>
      cases hp : env.promptSecretName with
      | error er =>
        simp [get_secret_name, hn, hni, hp] at he
        subst he; rfl
      | ok n2 =>
        simp [get_secret_name, hn, hni, hp] at he
        subst he; rfl

/-- Effects of a phase other than rendering do not print. -/
lemma noPrint_of_phase (l : List Effect) (k : Nat) (hk : k ≠ 3)
    (h : ∀ e ∈ l, phaseOf e = k) : ∀ e ∈ l, e.isPrint = false := by
  intro e he
  cases e with
  | print s => exact absurd (h _ he).symm hk
  | resolveAppRemote i => rfl
  | getCurrentDir => rfl
  | readConfig d => rfl
  | promptAppId => rfl
  | promptSecret => rfl
  | fetchSecretByName a n => rfl
  | fetchAllSecrets a => rfl

/-- The resolution steps print nothing. -/
lemma get_app_id_noPrint (cmd : CmdAppSecretsReveal) (env : Env) :
    output (get_app_id cmd env).2 = "" :=
  output_eq_empty_of_noPrint _
    (noPrint_of_phase _ 0 (by decide) (get_app_id_phase cmd env))

/-- The name-resolution step prints nothing. -/
lemma get_secret_name_noPrint (cmd : CmdAppSecretsReveal) (env : Env) :
    output (get_secret_name cmd env).2 = "" :=
  output_eq_empty_of_noPrint _
    (noPrint_of_phase _ 1 (by decide) (get_secret_name_phase cmd env))

/-- C3: in single-secret mode with the item-table format requested, the
command never succeeds and renders no output at all; whenever the earlier
steps succeed, the failure is exactly the unsupported-format error. -/
theorem C3_single_item_table_rejected (cmd : CmdAppSecretsReveal) (env : Env)
    (ha : cmd.all = false) (hf : cmd.fmt = some ListFormat.ItemTable) :
    (run_async cmd env).1 ≠ .ok () ∧
    (∀ e ∈ (run_async cmd env).2, e.isPrint = false) ∧
    (∀ appId name value,
      env.mkClient = .ok () →
      (get_app_id cmd env).1 = .ok appId →
      (get_secret_name cmd env).1 = .ok name →
      env.fetchSecret appId name = .ok value →
      (run_async cmd env).1 = .error (.unsupportedFormat itemTableMsg)) := by
  have hnp1 : ∀ e ∈ (get_app_id cmd env).2, e.isPrint = false :=
    noPrint_of_phase _ 0 (by decide) (get_app_id_phase cmd env)
  have hnp2 : ∀ e ∈ (get_secret_name cmd env).2, e.isPrint = false :=
    noPrint_of_phase _ 1 (by decide) (get_secret_name_phase cmd env)
  cases hmc : env.mkClient with
  | error e0 =>
    refine ⟨?_, ?_, ?_⟩
    · simp [run_async, hmc]
    · simp [run_async, hmc]
    · intro a n v hmc2 _ _ _
      cases hmc2
  | ok u =>
    cases u
    cases hra : (get_app_id cmd env).1 with
    | error e1 =>
      refine ⟨?_, ?_, ?_⟩
      · simp [run_async, hmc, hra]
      · simp only [run_async, hmc, hra]
        exact hnp1
      · intro a n v _ hra2 _ _
        cases hra2
    | ok appId =>
      cases hrn : (get_secret_name cmd env).1 with
      | error e2 =>
        refine ⟨?_, ?_, ?_⟩
        · simp [run_async, hmc, hra, hrn, ha]
        · simp only [run_async, hmc, hra, hrn, ha]
          simp only [if_true]
          intro e he
          rcases List.mem_append.mp he with h1 | h1
          · exact hnp1 e h1
          · exact hnp2 e h1
        · intro a n v _ hra2 hrn2 _
          cases hrn2
      | ok name =>
        cases hfv : env.fetchSecret appId name with
        | error e3 =>
          refine ⟨?_, ?_, ?_⟩
          · simp [run_async, hmc, hra, hrn, ha, hfv]
          · simp only [run_async, hmc, hra, hrn, ha, hfv]
            simp only [if_true]
            intro e he
            rcases List.mem_append.mp he with h1 | h1
            · rcases List.mem_append.mp h1 with h2 | h2
              · exact hnp1 e h2
              · exact hnp2 e h2
            · simp only [List.mem_singleton] at h1
              subst h1; rfl
          · intro a n v _ hra2 hrn2 hfv2
            cases hra2
            cases hrn2
            rw [hfv] at hfv2; cases hfv2
        | ok v =>
          refine ⟨?_, ?_, ?_⟩
          · simp [run_async, hmc, hra, hrn, ha, hfv, hf, toItemFormat]
          · simp only [run_async, hmc, hra, hrn, ha, hfv, hf]
            simp only [if_true, toItemFormat]
            intro e he
            rcases List.mem_append.mp he with h1 | h1
            · rcases List.mem_append.mp h1 with h2 | h2
              · exact hnp1 e h2
              · exact hnp2 e h2
            · simp only [List.mem_singleton] at h1
              subst h1; rfl
          · intro a n v2 _ hra2 hrn2 hfv2
            cases hra2
            cases hrn2
            simp [run_async, hmc, hra, hrn, ha, hfv, hf, toItemFormat]

/-- Concrete single-mode command requesting the item-table format. -/
def cmdC3 : CmdAppSecretsReveal :=
  { testCmd with app_id := some "x", secret_name := some "S",
                 fmt := some ListFormat.ItemTable }

/-- Witness for C3 at a concrete command and environment. -/
theorem C3_witness :
    (run_async cmdC3 testEnv).1 = .error (.unsupportedFormat itemTableMsg) :=
  (C3_single_item_table_rejected cmdC3 testEnv rfl rfl).2.2
    "id_x" "S" "s3cr3t" rfl rfl rfl rfl

/-- C4: in single-secret mode with no format flag, a successful run emits
exactly the raw secret value: no name, no quotes, no trailing newline. -/
theorem C4_single_plain_raw_value (cmd : CmdAppSecretsReveal) (env : Env)
    (appId name v : String)
    (ha : cmd.all = false) (hf : cmd.fmt = none)
    (hmc : env.mkClient = .ok ())
    (hra : (get_app_id cmd env).1 = .ok appId)
    (hrn : (get_secret_name cmd env).1 = .ok name)
    (hfv : env.fetchSecret appId name = .ok v) :
    (run_async cmd env).1 = .ok () ∧
    output (run_async cmd env).2 = v := by
  have h1 := get_app_id_noPrint cmd env
  have h2 := get_secret_name_noPrint cmd env
  constructor
  · simp [run_async, hmc, hra, hrn, hfv, ha, hf]
  · simp [run_async, hmc, hra, hrn, hfv, ha, hf, output_append, h1, h2, output]

/-- Concrete single-mode command for the raw-value scenario. -/
def cmdC4 : CmdAppSecretsReveal :=
  { testCmd with app_id := some "app_123", secret_name := some "DB_PASSWORD" }

/-- Witness for C4: app id app_123, secret DB_PASSWORD, fetched value
s3cr3t, no format flag; stdout is exactly s3cr3t. -/
theorem C4_witness :
    (run_async cmdC4 testEnv).1 = .ok () ∧
    output (run_async cmdC4 testEnv).2 = "s3cr3t" :=
  C4_single_plain_raw_value cmdC4 testEnv "id_app_123" "DB_PASSWORD" "s3cr3t"
    rfl rfl rfl rfl rfl rfl

/-- Concatenation of emitted lines unfolds one line at a time. -/
lemma concatLines_cons (a : String) (l : List String) :
    concatLines (a :: l) = a ++ concatLines l := rfl

/-- Output of a list of prints is the concatenation of the printed lines. -/
lemma output_map_print (f : Secret → String) (l : List Secret) :
    output (l.map (fun s => Effect.print (f s))) = concatLines (l.map f) := by
  induction l with
  | nil => rfl
  | cons s t ih =>
    simp only [List.map_cons, output, concatLines_cons]
    rw [ih]

/-- Full characterization of a successful all-mode run: the command
succeeds, and the output is the structured rendering of exactly the fetched
list when a format was requested, else one plain line per fetched secret in
fetch order. -/
lemma run_async_all_spec (cmd : CmdAppSecretsReveal) (env : Env)
    (appId : String) (secrets : List Secret)
    (ha : cmd.all = true)
    (hmc : env.mkClient = .ok ())
    (hra : (get_app_id cmd env).1 = .ok appId)
    (hfa : env.fetchAll appId = .ok secrets) :
    (run_async cmd env).1 = .ok () ∧
    output (run_async cmd env).2 =
      (match cmd.fmt with
       | some lf => env.listRender lf secrets ++ "\n"
       | none => concatLines (secrets.map secretLine)) := by
  have h1 := get_app_id_noPrint cmd env
  cases hfmt : cmd.fmt with
  | some lf =>
    constructor
    · simp [run_async, hmc, hra, ha, hfa, hfmt]
    · simp [run_async, hmc, hra, ha, hfa, hfmt, output_append, h1, output]
  | none =>
    constructor
    · simp [run_async, hmc, hra, ha, hfa, hfmt]
    · simp [run_async, hmc, hra, ha, hfa, hfmt, output_append, h1, output,
            output_map_print]

/-- C5: in all-secrets mode with no format flag, a successful run emits one
line per fetched secret, in fetch order, of the shape name="sanitized
value", with double quotes escaped and raw newlines neutralized by the
sanitizer. -/
theorem C5_all_plain_sanitized_lines (cmd : CmdAppSecretsReveal) (env : Env)
    (appId : String) (secrets : List Secret)
    (ha : cmd.all = true) (hf : cmd.fmt = none)
    (hmc : env.mkClient = .ok ())
    (hra : (get_app_id cmd env).1 = .ok appId)
    (hfa : env.fetchAll appId = .ok secrets) :
    (run_async cmd env).1 = .ok () ∧
    output (run_async cmd env).2 =
      concatLines (secrets.map (fun s =>
        s.name ++ "=\"" ++ sanitize_value s.value ++ "\"\n")) := by
  have h := run_async_all_spec cmd env appId secrets ha hmc hra hfa
  rw [hf] at h
  exact h

/-- Concrete all-mode command for the sanitization scenario. -/
def cmdC5 : CmdAppSecretsReveal :=
  { testCmd with app_id := some "app_123", all := true }

/-- Environment delivering the two secrets of the C5 scenario. -/
def envC5 : Env :=
  { testEnv with
    fetchAll := fun _ => Except.ok [Secret.mk "API_KEY" "a\"b", Secret.mk "TOKEN" "xyz"] }

/-- Witness for C5: the quote in the first value is escaped and the two
lines come out in fetch order. -/
theorem C5_witness :
    (run_async cmdC5 envC5).1 = .ok () ∧
    output (run_async cmdC5 envC5).2 = "API_KEY=\"a\\\"b\"\nTOKEN=\"xyz\"\n" := by
  have h := C5_all_plain_sanitized_lines cmdC5 envC5 "id_app_123"
    [Secret.mk "API_KEY" "a\"b", Secret.mk "TOKEN" "xyz"] rfl rfl rfl rfl rfl
  refine ⟨h.1, ?_⟩
  rw [h.2]
  decide

/-- C7: in all-secrets mode, a successful run renders exactly the sequence
delivered by the remote source: the structured renderer receives the very
fetched list, and the plain path emits one line per fetched secret in fetch
order, with the empty sequence producing empty output. -/
theorem C7_all_renders_as_delivered (cmd : CmdAppSecretsReveal) (env : Env)
    (appId : String) (secrets : List Secret)
    (ha : cmd.all = true)
    (hmc : env.mkClient = .ok ())
    (hra : (get_app_id cmd env).1 = .ok appId)
    (hfa : env.fetchAll appId = .ok secrets) :
    (run_async cmd env).1 = .ok () ∧
    output (run_async cmd env).2 =
      (match cmd.fmt with
       | some lf => env.listRender lf secrets ++ "\n"
       | none => concatLines (secrets.map secretLine)) ∧
    (cmd.fmt = none → secrets = [] → output (run_async cmd env).2 = "") := by
  have h := run_async_all_spec cmd env appId secrets ha hmc hra hfa
  refine ⟨h.1, h.2, ?_⟩
  intro hf he
  rw [h.2, hf, he]
  rfl

/-- Concrete all-mode command with no format flag. -/
def cmdC7 : CmdAppSecretsReveal :=
  { testCmd with app_id := some "empty_app", all := true }

/-- Witness for C7: the empty fetched sequence yields empty output. -/
theorem C7_witness :
    (run_async cmdC7 testEnv).1 = .ok () ∧
    output (run_async cmdC7 testEnv).2 = "" :=
  ⟨(C7_all_renders_as_delivered cmdC7 testEnv "id_empty_app" [] rfl rfl rfl rfl).1,
   (C7_all_renders_as_delivered cmdC7 testEnv "id_empty_app" [] rfl rfl rfl rfl).2.2
     rfl rfl⟩

/-- Command with no explicit app id, an explicit app dir and prompting
disallowed, used against a failing config read. -/
def cmdC6 : CmdAppSecretsReveal := { testCmd with app_dir_path := some "/proj" }

/-- Environment whose project-config read fails with an io error. -/
def envC6 : Env := { testEnv with configAppId := fun _ => Except.error Err.ioError }

/-- Counterexample to C6 as stated: the config read fails with an io error
during app resolution, yet that error is not surfaced; resolution instead
falls through and reports the missing-input error. -/
theorem C6_counterexample :
    envC6.configAppId "/proj" = .error .ioError ∧
    (get_app_id cmdC6 envC6).1 ≠ .error .ioError ∧
    (get_app_id cmdC6 envC6).1 = .error (.missingInput noAppIdMsg) := by
  have he : (get_app_id cmdC6 envC6).1 = .error (.missingInput noAppIdMsg) := rfl
  refine ⟨rfl, ?_, he⟩
  rw [he]
  simp [noAppIdMsg]

/-- C6 amended: every error arising at a fallible step of the workflow —
client creation, explicit-id remote resolution, working-directory lookup,
the app-identifier prompt, the remote resolution following that prompt,
the secret-name prompt, the single-secret fetch and the secret-list
fetch — is surfaced immediately and unchanged, with one exception: a
failure while reading the project config file during app resolution is
silently ignored, and resolution behaves exactly as if the config file
held no app id (same result and same effects), reaching the interactive
prompt when prompting is allowed or the missing-input failure when it is
disallowed. -/
theorem C6_amended_errors_surfaced (cmd : CmdAppSecretsReveal) (env : Env) :
    (∀ e, env.mkClient = .error e → (run_async cmd env).1 = .error e) ∧
    (∀ e, env.mkClient = .ok () → (get_app_id cmd env).1 = .error e →
      (run_async cmd env).1 = .error e) ∧
    (∀ appId e, env.mkClient = .ok () → cmd.all = false →
      (get_app_id cmd env).1 = .ok appId →
      (get_secret_name cmd env).1 = .error e →
      (run_async cmd env).1 = .error e) ∧
    (∀ appId name e, env.mkClient = .ok () → cmd.all = false →
      (get_app_id cmd env).1 = .ok appId →
      (get_secret_name cmd env).1 = .ok name →
      env.fetchSecret appId name = .error e →
      (run_async cmd env).1 = .error e) ∧
    (∀ appId e, env.mkClient = .ok () → cmd.all = true →
      (get_app_id cmd env).1 = .ok appId →
      env.fetchAll appId = .error e →
      (run_async cmd env).1 = .error e) ∧
    (∀ i e, cmd.app_id = some i → env.resolveApp i = .error e →
      (get_app_id cmd env).1 = .error e) ∧
    (∀ e, cmd.app_id = none → (choose_dir cmd env).1 = .error e →
      (get_app_id cmd env).1 = .error e) ∧
    (∀ dir e, cmd.app_id = none → (choose_dir cmd env).1 = .ok dir →
      (∀ a, env.configAppId dir ≠ .ok (some a)) →
      cmd.non_interactive = false → env.promptAppIdent = .error e →
      (get_app_id cmd env).1 = .error e) ∧
    (∀ dir i e, cmd.app_id = none → (choose_dir cmd env).1 = .ok dir →
      (∀ a, env.configAppId dir ≠ .ok (some a)) →
      cmd.non_interactive = false → env.promptAppIdent = .ok i →
      env.resolveApp i = .error e →
      (get_app_id cmd env).1 = .error e) ∧
    (∀ e, cmd.secret_name = none → cmd.non_interactive = false →
      env.promptSecretName = .error e →
      (get_secret_name cmd env).1 = .error e) ∧
    (∀ e, get_app_id cmd { env with configAppId := fun _ => Except.error e }
      = get_app_id cmd { env with configAppId := fun _ => Except.ok none }) ∧
    (∀ dir e, cmd.app_id = none → cmd.non_interactive = true →
      (choose_dir cmd env).1 = .ok dir → env.configAppId dir = .error e →
      (get_app_id cmd env).1 = .error (.missingInput noAppIdMsg)) ∧
    (∀ dir e, cmd.app_id = none → cmd.non_interactive = false →
      (choose_dir cmd env).1 = .ok dir → env.configAppId dir = .error e →
      Effect.promptAppId ∈ (get_app_id cmd env).2) := by
  refine ⟨?_, ?_, ?_, ?_, ?_, ?_, ?_, ?_, ?_, ?_, ?_, ?_, ?_⟩
  · intro e h
    simp [run_async, h]
  · intro e hmc hra
    simp [run_async, hmc, hra]
  · intro appId e hmc ha hra hrn
    simp [run_async, hmc, ha, hra, hrn]
  · intro appId name e hmc ha hra hrn hfv
    simp [run_async, hmc, ha, hra, hrn, hfv]
  · intro appId e hmc ha hra hfa
    simp [run_async, hmc, ha, hra, hfa]
  · intro i e hai hres
    rw [get_app_id_explicit cmd env i hai]
    exact hres
  · intro e hai hd
    simp [get_app_id, hai, hd]
  · intro dir e hai hd hcfg hni hp
    cases hc : env.configAppId dir with
    | ok o =>
      cases o with
      | some a => exact absurd hc (hcfg a)
      | none => simp [get_app_id, hai, hd, hc, hni, hp]
    | error e2 => simp [get_app_id, hai, hd, hc, hni, hp]
  · intro dir i e hai hd hcfg hni hp hres
    cases hc : env.configAppId dir with
    | ok o =>
      cases o with
      | some a => exact absurd hc (hcfg a)
      | none => simp [get_app_id, hai, hd, hc, hni, hp, hres]
    | error e2 => simp [get_app_id, hai, hd, hc, hni, hp, hres]
  · intro e hn hni hp
    simp [get_secret_name, hn, hni, hp]
  · intro e
    rfl
  · intro dir e hai hni hd hc
    simp [get_app_id, hai, hd, hc, hni]
  · intro dir e hai hni hd hc
    cases hp : env.promptAppIdent with
    | error e2 => simp [get_app_id, hai, hd, hc, hni, hp]
    | ok i => simp [get_app_id, hai, hd, hc, hni, hp]

/-- Environment whose client creation fails. -/
def envMkErr : Env := { testEnv with mkClient := Except.error Err.apiError }

/-- Environment whose remote app resolution fails. -/
def envResErr : Env :=
  { testEnv with resolveApp := fun _ => Except.error Err.resolutionError }

/-- Environment whose working-directory lookup fails. -/
def envCwdErr : Env := { testEnv with currentDir := Except.error Err.ioError }

/-- Environment whose single-secret fetch fails. -/
def envFetchErr : Env :=
  { testEnv with fetchSecret := fun _ _ => Except.error Err.notFound }

/-- Environment whose secret-listing fetch fails. -/
def envFetchAllErr : Env :=
  { testEnv with fetchAll := fun _ => Except.error Err.apiError }

/-- Single-mode command with explicit app id and secret name. -/
def cmdSingle : CmdAppSecretsReveal :=
  { testCmd with app_id := some "x", secret_name := some "S" }

/-- All-mode command with explicit app id. -/
def cmdAll : CmdAppSecretsReveal := { testCmd with app_id := some "x", all := true }

/-- Interactive command: no identifiers given, prompting allowed. -/
def cmdInteractive : CmdAppSecretsReveal :=
  { testCmd with non_interactive := false }

/-- Environment whose app-identifier prompt fails. -/
def envPromptErr : Env :=
  { testEnv with promptAppIdent := Except.error Err.inputError }

/-- Environment whose secret-name prompt fails. -/
def envNamePromptErr : Env :=
  { testEnv with promptSecretName := Except.error Err.inputError }

/-- Interactive command reading config from an explicit directory. -/
def cmdC6i : CmdAppSecretsReveal :=
  { testCmd with app_dir_path := some "/proj", non_interactive := false }

/-- Witness for the amended C6, one concrete scenario per conjunct. -/
theorem C6_amended_witness :
    (run_async testCmd envMkErr).1 = .error .apiError ∧
    (run_async cmdSingle envResErr).1 = .error .resolutionError ∧
    (run_async { testCmd with app_id := some "x" } testEnv).1
      = .error (.missingInput noSecretNameMsg) ∧
    (run_async cmdSingle envFetchErr).1 = .error .notFound ∧
    (run_async cmdAll envFetchAllErr).1 = .error .apiError ∧
    (get_app_id cmdSingle envResErr).1 = .error .resolutionError ∧
    (get_app_id testCmd envCwdErr).1 = .error .ioError ∧
    (get_app_id cmdInteractive envPromptErr).1 = .error .inputError ∧
    (get_app_id cmdInteractive envResErr).1 = .error .resolutionError ∧
    (get_secret_name cmdInteractive envNamePromptErr).1
      = .error .inputError ∧
    get_app_id cmdC6
        { testEnv with configAppId := fun _ => Except.error Err.ioError }
      = get_app_id cmdC6
        { testEnv with configAppId := fun _ => Except.ok none } ∧
    (get_app_id cmdC6 envC6).1 = .error (.missingInput noAppIdMsg) ∧
    Effect.promptAppId ∈ (get_app_id cmdC6i envC6).2 :=
  ⟨(C6_amended_errors_surfaced testCmd envMkErr).1 .apiError rfl,
   (C6_amended_errors_surfaced cmdSingle envResErr).2.1 .resolutionError
     rfl rfl,
   (C6_amended_errors_surfaced { testCmd with app_id := some "x" }
     testEnv).2.2.1 "id_x" (.missingInput noSecretNameMsg) rfl rfl rfl rfl,
   (C6_amended_errors_surfaced cmdSingle envFetchErr).2.2.2.1 "id_x" "S"
     .notFound rfl rfl rfl rfl rfl,
   (C6_amended_errors_surfaced cmdAll envFetchAllErr).2.2.2.2.1 "id_x"
     .apiError rfl rfl rfl rfl,
   (C6_amended_errors_surfaced cmdSingle envResErr).2.2.2.2.2.1 "x"
     .resolutionError rfl rfl,
   (C6_amended_errors_surfaced testCmd envCwdErr).2.2.2.2.2.2.1 .ioError
     rfl rfl,
   (C6_amended_errors_surfaced cmdInteractive envPromptErr).2.2.2.2.2.2.2.1
     "/cwd" .inputError rfl rfl
     (by intro a h; simp [envPromptErr, testEnv] at h) rfl rfl,
   (C6_amended_errors_surfaced cmdInteractive
     envResErr).2.2.2.2.2.2.2.2.1 "/cwd" "prompted_app" .resolutionError
     rfl rfl (by intro a h; simp [envResErr, testEnv] at h) rfl rfl rfl,
   (C6_amended_errors_surfaced cmdInteractive
     envNamePromptErr).2.2.2.2.2.2.2.2.2.1 .inputError rfl rfl rfl,
   (C6_amended_errors_surfaced cmdC6 testEnv).2.2.2.2.2.2.2.2.2.2.1
     Err.ioError,
   (C6_amended_errors_surfaced cmdC6 envC6).2.2.2.2.2.2.2.2.2.2.2.1
     "/proj" .ioError rfl rfl rfl rfl,
   (C6_amended_errors_surfaced cmdC6i envC6).2.2.2.2.2.2.2.2.2.2.2.2
     "/proj" .ioError rfl rfl rfl rfl⟩

/-- App-resolution effects are never the secret-name prompt. -/
lemma ne_promptSecret_of_phase0 (e : Effect) (h : phaseOf e = 0) :
    e ≠ Effect.promptSecret := by
  intro hh
  subst hh
  simp [phaseOf] at h

/-- C8: secret-name resolution returns an explicit name unchanged with no
prompt, fails with the missing-input error when no name is given and
prompting is disallowed, and is not consulted at all in all-secrets mode:
there the run is independent of the name argument and never prompts for a
name. -/
theorem C8_name_resolution_scope (cmd : CmdAppSecretsReveal) (env : Env) :
    (∀ n, cmd.secret_name = some n → get_secret_name cmd env = (.ok n, [])) ∧
    (cmd.secret_name = none → cmd.non_interactive = true →
      get_secret_name cmd env = (.error (.missingInput noSecretNameMsg), [])) ∧
    (cmd.all = true → ∀ x,
      run_async { cmd with secret_name := x } env = run_async cmd env) ∧
    (cmd.all = true → ∀ e ∈ (run_async cmd env).2, e ≠ Effect.promptSecret) := by
  refine ⟨?_, ?_, ?_, ?_⟩
  · intro n h
    simp [get_secret_name, h]
  · intro h1 h2
    simp [get_secret_name, h1, h2]
  · intro ha x
    simp [run_async, ha, get_app_id, choose_dir]
  · intro ha e he
    cases hmc : env.mkClient with
    | error e0 => simp [run_async, hmc] at he
    | ok u =>
      cases u
      cases hra : (get_app_id cmd env).1 with
      | error e1 =>
        simp only [run_async, hmc, hra] at he
        exact ne_promptSecret_of_phase0 e (get_app_id_phase cmd env e he)
      | ok appId =>
        cases hfa : env.fetchAll appId with
        | error e2 =>
          simp only [run_async, hmc, hra, ha, hfa] at he
          simp only [Bool.true_eq_false, if_false] at he
          rcases List.mem_append.mp he with h1 | h1
          · exact ne_promptSecret_of_phase0 e (get_app_id_phase cmd env e h1)
          · simp only [List.mem_singleton] at h1
            subst h1
            simp
        | ok secrets =>
          cases hfmt : cmd.fmt with
          | some lf =>
            simp only [run_async, hmc, hra, ha, hfa, hfmt] at he
            simp only [Bool.true_eq_false, if_false] at he
            rcases List.mem_append.mp he with h1 | h1
            · rcases List.mem_append.mp h1 with h2 | h2
              · exact ne_promptSecret_of_phase0 e (get_app_id_phase cmd env e h2)
              · simp only [List.mem_singleton] at h2
                subst h2
                simp
            · simp only [List.mem_singleton] at h1
              subst h1
              simp
          | none =>
            simp only [run_async, hmc, hra, ha, hfa, hfmt] at he
            simp only [Bool.true_eq_false, if_false] at he
            rcases List.mem_append.mp he with h1 | h1
            · rcases List.mem_append.mp h1 with h2 | h2
              · exact ne_promptSecret_of_phase0 e (get_app_id_phase cmd env e h2)
              · simp only [List.mem_singleton] at h2
                subst h2
                simp
            · simp only [List.mem_map] at h1
              obtain ⟨s, _, hs⟩ := h1
              subst hs
              simp

/-- Witness for C8, instantiating the three hypothesis-bearing conjuncts. -/
theorem C8_witness :
    get_secret_name cmdSingle testEnv = (.ok "S", []) ∧
    get_secret_name testCmd testEnv
      = (.error (.missingInput noSecretNameMsg), []) ∧
    run_async { cmdAll with secret_name := some "Z" } testEnv
      = run_async cmdAll testEnv :=
  ⟨(C8_name_resolution_scope cmdSingle testEnv).1 "S" rfl,
   (C8_name_resolution_scope testCmd testEnv).2.1 rfl rfl,
   (C8_name_resolution_scope cmdAll testEnv).2.2.1 rfl (some "Z")⟩

/-- C9: an invocation combining the positional name with the all flag, or
the positional app id with the app-dir path, is rejected by argument
validation before anything runs: the result is the conflict error and the
trace is empty, so no resolution, prompting or network call happened. -/
theorem C9_conflicts_rejected_at_boundary (cmd : CmdAppSecretsReveal)
    (env : Env)
    (h : (cmd.secret_name.isSome && cmd.all) = true ∨
         (cmd.app_id.isSome && cmd.app_dir_path.isSome) = true) :
    invoke cmd env = (.error .argConflict, []) := by
  rcases h with h1 | h1
  · simp [invoke, clap_validate, h1]
  · cases hna : (cmd.secret_name.isSome && cmd.all) with
    | true => simp [invoke, clap_validate, hna]
    | false => simp [invoke, clap_validate, hna, h1]

/-- Witness for C9: name and all set together are rejected with an empty
trace. -/
theorem C9_witness :
    invoke { testCmd with secret_name := some "S", all := true } testEnv
      = (.error .argConflict, []) :=
  C9_conflicts_rejected_at_boundary
    { testCmd with secret_name := some "S", all := true } testEnv (Or.inl rfl)

/-- A trace segment whose effects all belong to phase `k` of the pipeline. -/
def phaseSeg (l : List Effect) (k : Nat) : Prop := ∀ e ∈ l, phaseOf e = k

/-- The empty segment belongs to every phase. -/
lemma phaseSeg_nil (k : Nat) : phaseSeg [] k := by
  intro e he
  cases he

/-- C10: the trace of every invocation decomposes into four consecutive
segments in pipeline order — app resolution, then secret-name resolution,
then fetching, then rendering — so the app id is fully resolved before the
secret name is determined, and fetching never precedes resolution. -/
theorem C10_strictly_sequential_phases (cmd : CmdAppSecretsReveal) (env : Env) :
    ∃ t0 t1 t2 t3,
      (run_async cmd env).2 = t0 ++ (t1 ++ (t2 ++ t3)) ∧
      phaseSeg t0 0 ∧ phaseSeg t1 1 ∧ phaseSeg t2 2 ∧ phaseSeg t3 3 := by
  have hp0 := get_app_id_phase cmd env
  have hp1 := get_secret_name_phase cmd env
  cases hmc : env.mkClient with
  | error e0 =>
    exact ⟨[], [], [], [], by simp [run_async, hmc],
      phaseSeg_nil 0, phaseSeg_nil 1, phaseSeg_nil 2, phaseSeg_nil 3⟩
  | ok u =>
    cases u
    cases hra : (get_app_id cmd env).1 with
    | error e1 =>
      exact ⟨(get_app_id cmd env).2, [], [], [],
        by simp [run_async, hmc, hra],
        hp0, phaseSeg_nil 1, phaseSeg_nil 2, phaseSeg_nil 3⟩
    | ok appId =>
      cases hall : cmd.all with
      | false =>
        cases hrn : (get_secret_name cmd env).1 with
        | error e2 =>
          exact ⟨(get_app_id cmd env).2, (get_secret_name cmd env).2, [], [],
            by simp [run_async, hmc, hra, hall, hrn],
            hp0, hp1, phaseSeg_nil 2, phaseSeg_nil 3⟩
        | ok name =>
          have hseg2 : phaseSeg [Effect.fetchSecretByName appId name] 2 := by
            intro e he
            simp only [List.mem_singleton] at he
            subst he; rfl
          cases hfv : env.fetchSecret appId name with
          | error e3 =>
            exact ⟨(get_app_id cmd env).2, (get_secret_name cmd env).2,
              [Effect.fetchSecretByName appId name], [],
              by simp [run_async, hmc, hra, hall, hrn, hfv],
              hp0, hp1, hseg2, phaseSeg_nil 3⟩
          | ok value =>
            cases hfmt : cmd.fmt with
            | some lf =>
              cases lf with
              | ItemTable =>
                exact ⟨(get_app_id cmd env).2, (get_secret_name cmd env).2,
                  [Effect.fetchSecretByName appId name], [],
                  by simp [run_async, hmc, hra, hall, hrn, hfv, hfmt,
                           toItemFormat],
                  hp0, hp1, hseg2, phaseSeg_nil 3⟩
              | Json =>
                refine ⟨(get_app_id cmd env).2, (get_secret_name cmd env).2,
                  [Effect.fetchSecretByName appId name],
                  [Effect.print (env.itemRender .Json (Secret.mk name value)
                    ++ "\n")],
                  by simp [run_async, hmc, hra, hall, hrn, hfv, hfmt,
                           toItemFormat],
                  hp0, hp1, hseg2, ?_⟩
                intro e he
                simp only [List.mem_singleton] at he
                subst he; rfl
              | Yaml =>
                refine ⟨(get_app_id cmd env).2, (get_secret_name cmd env).2,
                  [Effect.fetchSecretByName appId name],
                  [Effect.print (env.itemRender .Yaml (Secret.mk name value)
                    ++ "\n")],
                  by simp [run_async, hmc, hra, hall, hrn, hfv, hfmt,
                           toItemFormat],
                  hp0, hp1, hseg2, ?_⟩
                intro e he
                simp only [List.mem_singleton] at he
                subst he; rfl
              | Table =>
                refine ⟨(get_app_id cmd env).2, (get_secret_name cmd env).2,
                  [Effect.fetchSecretByName appId name],
                  [Effect.print (env.itemRender .Table (Secret.mk name value)
                    ++ "\n")],
                  by simp [run_async, hmc, hra, hall, hrn, hfv, hfmt,
                           toItemFormat],
                  hp0, hp1, hseg2, ?_⟩
                intro e he
                simp only [List.mem_singleton] at he
                subst he; rfl
            | none =>
              refine ⟨(get_app_id cmd env).2, (get_secret_name cmd env).2,
                [Effect.fetchSecretByName appId name], [Effect.print value],
                by simp [run_async, hmc, hra, hall, hrn, hfv, hfmt],
                hp0, hp1, hseg2, ?_⟩
              intro e he
              simp only [List.mem_singleton] at he
              subst he; rfl
      | true =>
        have hseg2 : phaseSeg [Effect.fetchAllSecrets appId] 2 := by
          intro e he
          simp only [List.mem_singleton] at he
          subst he; rfl
        cases hfa : env.fetchAll appId with
        | error e2 =>
          exact ⟨(get_app_id cmd env).2, [], [Effect.fetchAllSecrets appId], [],
            by simp [run_async, hmc, hra, hall, hfa],
            hp0, phaseSeg_nil 1, hseg2, phaseSeg_nil 3⟩
        | ok secrets =>
          cases hfmt : cmd.fmt with
          | some lf =>
            refine ⟨(get_app_id cmd env).2, [], [Effect.fetchAllSecrets appId],
              [Effect.print (env.listRender lf secrets ++ "\n")],
              by simp [run_async, hmc, hra, hall, hfa, hfmt],
              hp0, phaseSeg_nil 1, hseg2, ?_⟩
            intro e he
            simp only [List.mem_singleton] at he
            subst he; rfl
          | none =>
            refine ⟨(get_app_id cmd env).2, [], [Effect.fetchAllSecrets appId],
              secrets.map (fun s => Effect.print (secretLine s)),
              by simp [run_async, hmc, hra, hall, hfa, hfmt],
              hp0, phaseSeg_nil 1, hseg2, ?_⟩
            intro e he
            simp only [List.mem_map] at he
            obtain ⟨s, _, hs⟩ := he
            subst hs; rfl
